import Mathlib

/-
Verification of aten/src/ATen/miopen/Utils.h.

The header defines two inline helpers:

  inline void setMIOpenStreamToCurrent() {
    MIOPEN_CHECK(miopenSetStream(getMiopenHandle(),
        THCState_getCurrentStream(globalContext().getTHCState())));
  }

  inline Tensor contiguousIfZeroInStrides(const Tensor& t) {
    for (auto s : t.strides()) {
      if (s == 0) return t.contiguous();
    }
    return t;
  }

We embed the tensor metadata (shape, strides, storage identity) and an
explicit storage heap, model `Tensor::contiguous` from the specification
(its implementation lives in the framework core, outside this header),
and embed the stride-scanning loop faithfully as structural recursion
with early exit.
-/

namespace MiopenUtils

/-- A tensor view: per-dimension sizes, per-dimension strides (in elements,
possibly zero for broadcast dimensions), and the id of its backing storage. -/
structure Tensor where
  shape : List Nat
  strides : List Int
  storageId : Nat
deriving DecidableEq, Repr

/-- The storage state: a heap mapping each storage id to its contents
(a map from element address to stored value), and the next fresh storage id.
Every live tensor's storageId is below `next`. -/
structure Mem where
  heap : Nat → Int → Int
  next : Nat

/-- Linear element offset of a multi-index under a stride sequence:
the sum of index components times the corresponding strides. -/
def linOffset : List Int → List Nat → Int
  | s :: ss, i :: is => (i : Int) * s + linOffset ss is
  | _, _ => 0

/-- The element value of tensor `t` at multi-index `idx` in memory `m`. -/
def Tensor.elem (m : Mem) (t : Tensor) (idx : List Nat) : Int :=
  m.heap t.storageId (linOffset t.strides idx)

/-- A multi-index is valid for a shape when it is pointwise below the sizes. -/
def ValidIdx (idx shape : List Nat) : Prop :=
  List.Forall₂ (· < ·) idx shape

/-- Number of elements addressed by a dense layout of the given sizes,
treating size-0 dimensions as extent 1 so dense strides are never zero. -/
def sizeProd (ns : List Nat) : Nat :=
  ns.foldr (fun n a => max n 1 * a) 1

/-- Row-major dense strides for a shape: the stride of each dimension is the
product of the (clamped) extents of all later dimensions. -/
def denseStrides : List Nat → List Int
  | [] => []
  | _ :: ns => ((sizeProd ns : Nat) : Int) :: denseStrides ns

/-- Row-major rank of a multi-index within a shape. -/
def rankN : List Nat → List Nat → Nat
  | _ :: ns, i :: is => i * sizeProd ns + rankN ns is
  | _, _ => 0

/-- Inverse of `rankN`: recover a multi-index from a row-major linear address. -/
def unrank : List Nat → Nat → List Nat
  | [], _ => []
  | _ :: ns, a => a / sizeProd ns :: unrank ns (a % sizeProd ns)

/-- Modelled from the spec: `Tensor::contiguous()` (framework core, not part
of this header) returns a tensor with the same shape whose storage is a
freshly allocated, densely packed row-major copy of the same logical values;
the fresh storage does not alias any existing storage. -/
def Tensor.contiguous (m : Mem) (t : Tensor) : Tensor × Mem :=
  let buf : Int → Int := fun a => Tensor.elem m t (unrank t.shape a.toNat)
  (⟨t.shape, denseStrides t.shape, m.next⟩,
   ⟨fun i => if i = m.next then buf else m.heap i, m.next + 1⟩)

/-- The body of `contiguousIfZeroInStrides`: scan the stride entries in
dimension order; on the first zero, return `t.contiguous()` (early exit);
if the scan finishes, return `t` itself. -/
def scanStrides (m : Mem) (t : Tensor) : List Int → Tensor × Mem
  | [] => (t, m)
  | s :: rest => if s = 0 then t.contiguous m else scanStrides m t rest

/-- `contiguousIfZeroInStrides(t)`: run the scan over `t.strides()`. -/
def contiguousIfZeroInStrides (m : Mem) (t : Tensor) : Tensor × Mem :=
  scanStrides m t t.strides

/-- The specification's description of the normalizer: if any stride entry
of `t` equals zero then return `contiguous(t)`, otherwise return `t`. -/
def normalizeStridesSpec (m : Mem) (t : Tensor) : Tensor × Mem :=
  if (0 : Int) ∈ t.strides then t.contiguous m else (t, m)

/-- An out-of-memory condition raised by the host allocator. -/
inductive AllocError where
  | outOfMemory
deriving DecidableEq, Repr

/-- Modelled from the spec: `Tensor::contiguous()` with an explicit host
allocator outcome — if allocation succeeds the copy is produced, otherwise
the allocator's out-of-memory condition propagates unchanged. -/
def Tensor.contiguousA (allocOk : Bool) (m : Mem) (t : Tensor) :
    Except AllocError (Tensor × Mem) :=
  if allocOk then Except.ok (t.contiguous m) else Except.error AllocError.outOfMemory

/-- The stride scan with the allocator outcome made explicit. -/
def scanStridesA (allocOk : Bool) (m : Mem) (t : Tensor) :
    List Int → Except AllocError (Tensor × Mem)
  | [] => Except.ok (t, m)
  | s :: rest =>
    if s = 0 then t.contiguousA allocOk m else scanStridesA allocOk m t rest

/-- `contiguousIfZeroInStrides(t)` with the allocator outcome made explicit. -/
def contiguousIfZeroInStridesA (allocOk : Bool) (m : Mem) (t : Tensor) :
    Except AllocError (Tensor × Mem) :=
  scanStridesA allocOk m t t.strides

/-- A call issued into the external math library. -/
inductive LibCall where
  | setStream (handle : Nat) (stream : Nat)
deriving DecidableEq, Repr

/-- Modelled from the spec: the library-internal state mutated by stream
binding — the currently bound stream — together with an allocation counter
used to state that binding allocates nothing. -/
structure LibState where
  boundStream : Option Nat
  allocCount : Nat
deriving DecidableEq, Repr

/-- Modelled from the spec: the ambient process state read by
`setMIOpenStreamToCurrent` — `getMiopenHandle()` (the lazily created
per-device library context handle), `THCState_getCurrentStream(...)`
(the current thread's device stream), and the simulated library backend's
status code for a `miopenSetStream(handle, stream)` call
(0 is `miopenStatusSuccess`, any other value is a failure). -/
structure MiopenEnv where
  handle : Nat
  currentStream : Nat
  statusOf : Nat → Nat → Nat

/-- Error taxonomy of this header: a non-success status code from an
external library call. -/
inductive MiopenError where
  | libraryCallFailure (status : Nat)
deriving DecidableEq, Repr

/-- Modelled from the spec: `miopenSetStream(handle, stream)` returns a
status code; on success it records `stream` as the bound stream, on failure
the library-internal state is unchanged. -/
def miopenSetStream (env : MiopenEnv) (h s : Nat) (st : LibState) :
    Nat × LibState :=
  let code := env.statusOf h s
  (code, if code = 0 then { st with boundStream := some s } else st)

/-- Modelled from the spec: `MIOPEN_CHECK` (Exceptions.h, not part of this
header) surfaces any non-success status immediately as a
`libraryCallFailure` error and is the identity on success. -/
def MIOPEN_CHECK (code : Nat) : Except MiopenError Unit :=
  if code = 0 then Except.ok () else Except.error (MiopenError.libraryCallFailure code)

/-- `setMIOpenStreamToCurrent()`: issue the single `miopenSetStream` call
binding the context handle to the current stream, and check its status.
The result records the list of library calls issued, the library state
after the call, and the checked outcome. -/
def setMIOpenStreamToCurrent (env : MiopenEnv) (st : LibState) :
    List LibCall × LibState × Except MiopenError Unit :=
  let r := miopenSetStream env env.handle env.currentStream st
  ([LibCall.setStream env.handle env.currentStream], r.2, MIOPEN_CHECK r.1)

/-! ### Supporting lemmas -/

theorem sizeProd_pos (ns : List Nat) : 0 < sizeProd ns := by
  induction ns with
  | nil => simp [sizeProd]
  | cons n ns ih =>
    have h1 : 0 < max n 1 := lt_of_lt_of_le Nat.one_pos (le_max_right n 1)
    simpa [sizeProd] using Nat.mul_pos h1 ih

theorem zero_not_mem_denseStrides (shape : List Nat) :
    (0 : Int) ∉ denseStrides shape := by
  induction shape with
  | nil => simp [denseStrides]
  | cons n ns ih =>
    simp only [denseStrides, List.mem_cons]
    rintro (h | h)
    · have := sizeProd_pos ns
      omega
    · exact ih h

theorem rankN_lt_sizeProd {idx shape : List Nat} (h : ValidIdx idx shape) :
    rankN shape idx < sizeProd shape := by
  induction h with
  | nil => simp [rankN, sizeProd]
  | @cons i n is ns hin _ ih =>
    have hP : 0 < sizeProd ns := sizeProd_pos ns
    have step : i * sizeProd ns + rankN ns is < (i + 1) * sizeProd ns := by
      rw [Nat.succ_mul]
      omega
    have hle : (i + 1) * sizeProd ns ≤ max n 1 * sizeProd ns := by
      exact Nat.mul_le_mul_right _ (le_trans hin (le_max_left n 1))
    calc rankN (n :: ns) (i :: is) = i * sizeProd ns + rankN ns is := rfl
      _ < (i + 1) * sizeProd ns := step
      _ ≤ max n 1 * sizeProd ns := hle
      _ = sizeProd (n :: ns) := rfl

theorem unrank_rankN {idx shape : List Nat} (h : ValidIdx idx shape) :
    unrank shape (rankN shape idx) = idx := by
  induction h with
  | nil => rfl
  | @cons i n is ns _ hrest ih =>
    have hP : 0 < sizeProd ns := sizeProd_pos ns
    have hr : rankN ns is < sizeProd ns := rankN_lt_sizeProd hrest
    have hdiv : (i * sizeProd ns + rankN ns is) / sizeProd ns = i := by
      rw [Nat.mul_comm i (sizeProd ns), Nat.mul_add_div hP,
        Nat.div_eq_of_lt hr]
      omega
    have hmod : (i * sizeProd ns + rankN ns is) % sizeProd ns = rankN ns is := by
      rw [Nat.add_comm, Nat.add_mul_mod_self_right, Nat.mod_eq_of_lt hr]
    simp [unrank, rankN, hdiv, hmod, ih]

theorem linOffset_denseStrides (shape idx : List Nat) :
    linOffset (denseStrides shape) idx = ((rankN shape idx : Nat) : Int) := by
  induction shape generalizing idx with
  | nil => cases idx <;> simp [denseStrides, linOffset, rankN]
  | cons n ns ih =>
    cases idx with
    | nil => simp [denseStrides, linOffset, rankN]
    | cons i is =>
      simp only [denseStrides, linOffset, rankN, ih]
      push_cast
      ring

theorem contiguous_fst (m : Mem) (t : Tensor) :
    (t.contiguous m).1 = ⟨t.shape, denseStrides t.shape, m.next⟩ := rfl

theorem contiguous_elem (m : Mem) (t : Tensor) (idx : List Nat)
    (h : ValidIdx idx t.shape) :
    Tensor.elem (t.contiguous m).2 (t.contiguous m).1 idx = Tensor.elem m t idx := by
  show (if m.next = m.next then
      (fun a => Tensor.elem m t (unrank t.shape a.toNat)) else m.heap m.next)
      (linOffset (denseStrides t.shape) idx) = Tensor.elem m t idx
  rw [if_pos rfl, linOffset_denseStrides, Int.toNat_natCast, unrank_rankN h]

theorem scanStrides_eq (m : Mem) (t : Tensor) (l : List Int) :
    scanStrides m t l = if (0 : Int) ∈ l then t.contiguous m else (t, m) := by
  induction l with
  | nil => simp [scanStrides]
  | cons s rest ih =>
    by_cases hs : s = 0
    · subst hs
      simp [scanStrides]
    · simp only [scanStrides, if_neg hs, ih, List.mem_cons]
      have : ¬ (0 : Int) = s := fun h => hs h.symm
      simp [this]

theorem contiguousIfZeroInStrides_eq (m : Mem) (t : Tensor) :
    contiguousIfZeroInStrides m t =
      if (0 : Int) ∈ t.strides then t.contiguous m else (t, m) :=
  scanStrides_eq m t t.strides

theorem scanStridesA_eq (allocOk : Bool) (m : Mem) (t : Tensor) (l : List Int) :
    scanStridesA allocOk m t l =
      if (0 : Int) ∈ l then t.contiguousA allocOk m else Except.ok (t, m) := by
  induction l with
  | nil => simp [scanStridesA]
  | cons s rest ih =>
    by_cases hs : s = 0
    · subst hs
      simp [scanStridesA]
    · simp only [scanStridesA, if_neg hs, ih, List.mem_cons]
      have : ¬ (0 : Int) = s := fun h => hs h.symm
      simp [this]

/-- Observable equality of tensors: same shape, same strides, and the same
element value at every valid multi-index. -/
def ObsEq (m₁ : Mem) (t₁ : Tensor) (m₂ : Mem) (t₂ : Tensor) : Prop :=
  t₁.shape = t₂.shape ∧ t₁.strides = t₂.strides ∧
    ∀ idx, ValidIdx idx t₁.shape →
      Tensor.elem m₁ t₁ idx = Tensor.elem m₂ t₂ idx

/-! ### Claim theorems -/

/-- C1: for every tensor with at least one zero stride entry,
`contiguousIfZeroInStrides` returns a tensor with the same shape and the
same element values, whose strides contain no zero, and whose storage does
not alias the input's storage. -/
theorem c1_zero_stride_normalization (m : Mem) (t : Tensor)
    (hz : (0 : Int) ∈ t.strides) (hid : t.storageId < m.next) :
    (contiguousIfZeroInStrides m t).1.shape = t.shape ∧
    (0 : Int) ∉ (contiguousIfZeroInStrides m t).1.strides ∧
    (contiguousIfZeroInStrides m t).1.storageId ≠ t.storageId ∧
    ∀ idx, ValidIdx idx t.shape →
      Tensor.elem (contiguousIfZeroInStrides m t).2
        (contiguousIfZeroInStrides m t).1 idx = Tensor.elem m t idx := by
  rw [contiguousIfZeroInStrides_eq, if_pos hz]
  refine ⟨rfl, zero_not_mem_denseStrides t.shape, ?_,
    fun idx hv => contiguous_elem m t idx hv⟩
  show m.next ≠ t.storageId
  omega

theorem c1_zero_stride_normalization_witness :
    ((0 : Int) ∈ ([0, 1] : List Int) ∧ (0 : Nat) < 1) ∧
    ((contiguousIfZeroInStrides ⟨fun _ a => a, 1⟩ ⟨[4, 3], [0, 1], 0⟩).1.shape = [4, 3] ∧
     (0 : Int) ∉ (contiguousIfZeroInStrides ⟨fun _ a => a, 1⟩ ⟨[4, 3], [0, 1], 0⟩).1.strides ∧
     (contiguousIfZeroInStrides ⟨fun _ a => a, 1⟩ ⟨[4, 3], [0, 1], 0⟩).1.storageId ≠ 0 ∧
     ∀ idx, ValidIdx idx [4, 3] →
       Tensor.elem (contiguousIfZeroInStrides ⟨fun _ a => a, 1⟩ ⟨[4, 3], [0, 1], 0⟩).2
         (contiguousIfZeroInStrides ⟨fun _ a => a, 1⟩ ⟨[4, 3], [0, 1], 0⟩).1 idx
         = Tensor.elem ⟨fun _ a => a, 1⟩ ⟨[4, 3], [0, 1], 0⟩ idx) :=
  ⟨⟨by decide, by decide⟩,
   c1_zero_stride_normalization ⟨fun _ a => a, 1⟩ ⟨[4, 3], [0, 1], 0⟩
     (by decide) (by decide)⟩

/-- C2: for every tensor with no zero stride entry,
`contiguousIfZeroInStrides` returns the very same tensor and performs no
allocation (the memory state is unchanged). -/
theorem c2_no_zero_stride_identity (m : Mem) (t : Tensor)
    (hz : (0 : Int) ∉ t.strides) :
    contiguousIfZeroInStrides m t = (t, m) := by
  rw [contiguousIfZeroInStrides_eq, if_neg hz]

theorem c2_no_zero_stride_identity_witness :
    (0 : Int) ∉ ([3, 1] : List Int) ∧
    contiguousIfZeroInStrides ⟨fun _ a => a, 1⟩ ⟨[4, 3], [3, 1], 0⟩ =
      (⟨[4, 3], [3, 1], 0⟩, ⟨fun _ a => a, 1⟩) :=
  ⟨by decide, c2_no_zero_stride_identity ⟨fun _ a => a, 1⟩ ⟨[4, 3], [3, 1], 0⟩ (by decide)⟩

/-- C3: if the simulated library backend returns a non-success status for
the `miopenSetStream` call, `setMIOpenStreamToCurrent` surfaces a
`libraryCallFailure` error carrying that status; exactly the one failing
call was issued (no retry, no further calls) and the library state is
unchanged. -/
theorem c3_failure_aborts (env : MiopenEnv) (st : LibState)
    (hf : env.statusOf env.handle env.currentStream ≠ 0) :
    (setMIOpenStreamToCurrent env st).2.2 =
      Except.error
        (MiopenError.libraryCallFailure (env.statusOf env.handle env.currentStream)) ∧
    (setMIOpenStreamToCurrent env st).1 =
      [LibCall.setStream env.handle env.currentStream] ∧
    (setMIOpenStreamToCurrent env st).2.1 = st := by
  simp [setMIOpenStreamToCurrent, miopenSetStream, MIOPEN_CHECK, hf]

theorem c3_failure_aborts_witness :
    (7 : Nat) ≠ 0 ∧
    ((setMIOpenStreamToCurrent ⟨0, 5, fun _ _ => 7⟩ ⟨none, 0⟩).2.2 =
        Except.error (MiopenError.libraryCallFailure 7) ∧
      (setMIOpenStreamToCurrent ⟨0, 5, fun _ _ => 7⟩ ⟨none, 0⟩).1 =
        [LibCall.setStream 0 5] ∧
      (setMIOpenStreamToCurrent ⟨0, 5, fun _ _ => 7⟩ ⟨none, 0⟩).2.1 = ⟨none, 0⟩) :=
  ⟨by decide, c3_failure_aborts ⟨0, 5, fun _ _ => 7⟩ ⟨none, 0⟩ (by decide)⟩

/-- C4: `contiguousIfZeroInStrides` is idempotent — applying it to its own
result returns that result with the memory unchanged (the no-copy fast
path), and the first result's strides indeed contain no zero. -/
theorem c4_idempotent (m : Mem) (t : Tensor) :
    contiguousIfZeroInStrides (contiguousIfZeroInStrides m t).2
        (contiguousIfZeroInStrides m t).1 =
      ((contiguousIfZeroInStrides m t).1, (contiguousIfZeroInStrides m t).2) ∧
    (0 : Int) ∉ (contiguousIfZeroInStrides m t).1.strides := by
  rw [contiguousIfZeroInStrides_eq m t]
  by_cases hz : (0 : Int) ∈ t.strides
  · rw [if_pos hz]
    have hns : (0 : Int) ∉ (t.contiguous m).1.strides :=
      zero_not_mem_denseStrides t.shape
    exact ⟨by rw [contiguousIfZeroInStrides_eq, if_neg hns], hns⟩
  · rw [if_neg hz]
    exact ⟨by rw [contiguousIfZeroInStrides_eq, if_neg hz], hz⟩

/-- C5: the early-exit stride-scanning loop is equivalent to the
specification-level description `if any stride is zero then contiguous(t)
else t`; in particular the result does not depend on which dimension holds
the zero stride. -/
theorem c5_loop_refines_spec (m : Mem) (t : Tensor) :
    contiguousIfZeroInStrides m t = normalizeStridesSpec m t :=
  contiguousIfZeroInStrides_eq m t

/-- C6: a zero-dimensional (scalar) tensor — whose stride sequence is
empty — is returned unchanged, with no allocation. -/
theorem c6_scalar_unchanged (m : Mem) (t : Tensor)
    (hwf : t.strides.length = t.shape.length) (h0 : t.shape = []) :
    contiguousIfZeroInStrides m t = (t, m) := by
  have hnil : t.strides = [] :=
    List.eq_nil_of_length_eq_zero (by rw [hwf, h0]; rfl)
  rw [contiguousIfZeroInStrides_eq, if_neg (by simp [hnil])]

theorem c6_scalar_unchanged_witness :
    (([] : List Int).length = ([] : List Nat).length ∧ ([] : List Nat) = []) ∧
    contiguousIfZeroInStrides ⟨fun _ _ => 0, 1⟩ ⟨[], [], 0⟩ =
      (⟨[], [], 0⟩, ⟨fun _ _ => 0, 1⟩) :=
  ⟨⟨rfl, rfl⟩, c6_scalar_unchanged ⟨fun _ _ => 0, 1⟩ ⟨[], [], 0⟩ rfl rfl⟩

/-- C7: `contiguousIfZeroInStrides` has no failure mode of its own — with
the allocator outcome explicit, the no-copy path always succeeds and
returns the input, and the only possible error is the allocator's
out-of-memory condition on the copy path, propagated unchanged. -/
theorem c7_failure_mode (allocOk : Bool) (m : Mem) (t : Tensor) :
    contiguousIfZeroInStridesA allocOk m t =
      if (0 : Int) ∈ t.strides then
        (if allocOk = true then Except.ok (t.contiguous m)
         else Except.error AllocError.outOfMemory)
      else Except.ok (t, m) := by
  rw [contiguousIfZeroInStridesA, scanStridesA_eq]
  by_cases hz : (0 : Int) ∈ t.strides <;>
    cases allocOk <;> simp [hz, Tensor.contiguousA]

/-- C8: `setMIOpenStreamToCurrent` issues exactly one library call — the
one associating the context handle with the current stream — and its only
possible side effect is updating the bound-stream state: the allocation
counter is untouched and the library state is either unchanged or has the
current stream recorded as bound. -/
theorem c8_single_call_frame (env : MiopenEnv) (st : LibState) :
    (setMIOpenStreamToCurrent env st).1 =
      [LibCall.setStream env.handle env.currentStream] ∧
    (setMIOpenStreamToCurrent env st).2.1.allocCount = st.allocCount ∧
    ((setMIOpenStreamToCurrent env st).2.1 = st ∨
      (setMIOpenStreamToCurrent env st).2.1 =
        { st with boundStream := some env.currentStream }) := by
  by_cases hc : env.statusOf env.handle env.currentStream = 0 <;>
    simp [setMIOpenStreamToCurrent, miopenSetStream, hc]

/-- C9: `contiguousIfZeroInStrides` never mutates existing storage — the
contents of every already-allocated storage id, in particular the
argument's, are unchanged by the call on both paths. -/
theorem c9_no_mutation (m : Mem) (t : Tensor) (sid : Nat)
    (hid : sid < m.next) :
    (contiguousIfZeroInStrides m t).2.heap sid = m.heap sid := by
  rw [contiguousIfZeroInStrides_eq]
  by_cases hz : (0 : Int) ∈ t.strides
  · rw [if_pos hz]
    have hstep : (t.contiguous m).2.heap sid =
        if sid = m.next then
          (fun a => Tensor.elem m t (unrank t.shape a.toNat)) else m.heap sid := rfl
    rw [hstep, if_neg (by omega)]
  · rw [if_neg hz]

theorem c9_no_mutation_witness :
    (0 : Nat) < 1 ∧
    (contiguousIfZeroInStrides ⟨fun _ a => a, 1⟩ ⟨[2], [0], 0⟩).2.heap 0 =
      (⟨fun _ a => a, 1⟩ : Mem).heap 0 :=
  ⟨by decide, c9_no_mutation ⟨fun _ a => a, 1⟩ ⟨[2], [0], 0⟩ 0 (by decide)⟩

/-- C10: `contiguousIfZeroInStrides` is deterministic up to observation —
observably equal inputs (same shape, same strides, same element values)
yield observably equal outputs. -/
theorem c10_deterministic (m₁ m₂ : Mem) (t₁ t₂ : Tensor)
    (h : ObsEq m₁ t₁ m₂ t₂) :
    ObsEq (contiguousIfZeroInStrides m₁ t₁).2 (contiguousIfZeroInStrides m₁ t₁).1
      (contiguousIfZeroInStrides m₂ t₂).2 (contiguousIfZeroInStrides m₂ t₂).1 := by
  obtain ⟨hs, hst, hv⟩ := h
  rw [contiguousIfZeroInStrides_eq, contiguousIfZeroInStrides_eq]
  by_cases hz : (0 : Int) ∈ t₁.strides
  · rw [if_pos hz, if_pos (hst ▸ hz)]
    refine ⟨hs, ?_, ?_⟩
    · show denseStrides t₁.shape = denseStrides t₂.shape
      rw [hs]
    · intro idx hvld
      have hvld₁ : ValidIdx idx t₁.shape := hvld
      have hvld₂ : ValidIdx idx t₂.shape := hs ▸ hvld₁
      rw [contiguous_elem m₁ t₁ idx hvld₁, contiguous_elem m₂ t₂ idx hvld₂]
      exact hv idx hvld₁
  · rw [if_neg hz, if_neg (hst ▸ hz)]
    exact ⟨hs, hst, hv⟩

theorem c10_deterministic_witness :
    ObsEq ⟨fun _ _ => 3, 2⟩ ⟨[2], [1], 0⟩ ⟨fun _ _ => 3, 2⟩ ⟨[2], [1], 1⟩ ∧
    ObsEq (contiguousIfZeroInStrides ⟨fun _ _ => 3, 2⟩ ⟨[2], [1], 0⟩).2
      (contiguousIfZeroInStrides ⟨fun _ _ => 3, 2⟩ ⟨[2], [1], 0⟩).1
      (contiguousIfZeroInStrides ⟨fun _ _ => 3, 2⟩ ⟨[2], [1], 1⟩).2
      (contiguousIfZeroInStrides ⟨fun _ _ => 3, 2⟩ ⟨[2], [1], 1⟩).1 :=
  ⟨⟨rfl, rfl, fun _ _ => rfl⟩,
   c10_deterministic ⟨fun _ _ => 3, 2⟩ ⟨fun _ _ => 3, 2⟩ ⟨[2], [1], 0⟩ ⟨[2], [1], 1⟩
     ⟨rfl, rfl, fun _ _ => rfl⟩⟩

end MiopenUtils
